import Mathlib

/-!
Shallow embedding of the valuation engine in `src/ValuationCalculator.js`
(class `ValuationCalculator`).  JavaScript numbers are IEEE doubles; every
finite double is a rational, so finite values are modelled exactly as `ℚ`
(or as `ℝ` where the source uses `Math.pow`/`Math.sqrt` with non-integer
arguments), extended with the special values `Infinity`, `-Infinity` and
`NaN`.  Negative zero is identified with zero; rounding of finite
arithmetic is not modelled (exact real semantics), which is the usual
reading of the floating-tolerance language in the specification.
-/

/-- A JavaScript number: a finite value (exact), `Infinity`, `-Infinity`
or `NaN`. -/
inductive Js (α : Type) where
  | num (v : α)
  | posInf
  | negInf
  | nan
deriving DecidableEq

namespace Js

variable {α : Type} [LinearOrderedField α]

/-- JS unary minus. -/
def neg : Js α → Js α
  | num a => num (-a)
  | posInf => negInf
  | negInf => posInf
  | nan => nan

/-- JS `+` on numbers: `NaN` propagates, `Infinity + -Infinity = NaN`. -/
def add : Js α → Js α → Js α
  | num a, num b => num (a + b)
  | num _, posInf => posInf
  | num _, negInf => negInf
  | posInf, num _ => posInf
  | negInf, num _ => negInf
  | posInf, posInf => posInf
  | negInf, negInf => negInf
  | posInf, negInf => nan
  | negInf, posInf => nan
  | _, _ => nan

/-- JS `-` on numbers. -/
def sub (a b : Js α) : Js α := add a (neg b)

/-- JS `*` on numbers: `NaN` propagates, `0 * Infinity = NaN`,
otherwise infinities follow the sign rule. -/
def mul : Js α → Js α → Js α
  | num a, num b => num (a * b)
  | num a, posInf => if 0 < a then posInf else if a < 0 then negInf else nan
  | num a, negInf => if 0 < a then negInf else if a < 0 then posInf else nan
  | posInf, num b => if 0 < b then posInf else if b < 0 then negInf else nan
  | negInf, num b => if 0 < b then negInf else if b < 0 then posInf else nan
  | posInf, posInf => posInf
  | negInf, negInf => posInf
  | posInf, negInf => negInf
  | negInf, posInf => negInf
  | _, _ => nan

/-- JS `/` on numbers: division of a nonzero finite value by zero gives a
signed infinity, `0 / 0` gives `NaN`, a finite value over an infinity
gives `0`, `Infinity / Infinity` gives `NaN`, `NaN` propagates.
(Negative zero is identified with zero, so `x / 0` uses the sign of `x`.) -/
def div : Js α → Js α → Js α
  | num a, num b =>
      if b = 0 then (if 0 < a then posInf else if a < 0 then negInf else nan)
      else num (a / b)
  | num _, posInf => num 0
  | num _, negInf => num 0
  | posInf, num b => if 0 ≤ b then posInf else negInf
  | negInf, num b => if 0 ≤ b then negInf else posInf
  | _, _ => nan

/-- JS `Math.abs`. -/
def abs : Js α → Js α
  | num a => num |a|
  | posInf => posInf
  | negInf => posInf
  | nan => nan

/-- JS `Math.min` of two numbers: `NaN` propagates. -/
def min : Js α → Js α → Js α
  | nan, _ => nan
  | _, nan => nan
  | num a, num b => num (Min.min a b)
  | negInf, _ => negInf
  | _, negInf => negInf
  | posInf, b => b
  | a, posInf => a

/-- JS `<` as a boolean: any comparison with `NaN` is `false`. -/
def ltb : Js α → Js α → Bool
  | num a, num b => decide (a < b)
  | num _, posInf => true
  | negInf, num _ => true
  | negInf, posInf => true
  | _, _ => false

/-- JS `>` as a boolean. -/
def gtb (a b : Js α) : Bool := ltb b a

/-- JS `<=` as a boolean: any comparison with `NaN` is `false`. -/
def leb : Js α → Js α → Bool
  | num a, num b => decide (a ≤ b)
  | num _, posInf => true
  | negInf, num _ => true
  | negInf, negInf => true
  | negInf, posInf => true
  | posInf, posInf => true
  | _, _ => false

/-- JS truthiness of a number: `0` and `NaN` are falsy. -/
def truthy : Js α → Bool
  | num a => decide (a ≠ 0)
  | nan => false
  | _ => true

/-- Cast the finite values of a `Js ℚ` into `Js ℝ` (exact: every finite
double is a rational). -/
def toR : Js ℚ → Js ℝ
  | num q => num (q : ℝ)
  | posInf => posInf
  | negInf => negInf
  | nan => nan

end Js

/-- `ToNumber` coercion of a possibly absent (`undefined`/`null`) field
when it is used in arithmetic: an absent value behaves as `NaN`. -/
def optJs {α : Type} (v : Option (Js α)) : Js α := v.getD Js.nan

/-- JS truthiness of a possibly absent number field. -/
def optTruthy {α : Type} [LinearOrderedField α] (v : Option (Js α)) : Bool :=
  match v with
  | none => false
  | some x => x.truthy

/-! ### Data model (`CompanyRecord` and its nested groups)

Fields that JSON may omit (or set to `null`) are `Option`-valued; a field
whose value is itself a JS number that the code reads without an
existence check is modelled as plain `ℚ`. -/

/-- One year's entry of `financialHistory`. -/
structure YearData where
  revenue : Option (Js ℚ) := none
  grossProfit : Option (Js ℚ) := none
  operatingIncome : Option (Js ℚ) := none
  netIncome : Option (Js ℚ) := none
  freeCashFlow : Option (Js ℚ) := none
  operatingCashFlow : Option (Js ℚ) := none
  capex : Option (Js ℚ) := none
  totalAssets : Option (Js ℚ) := none
  totalDebt : Option (Js ℚ) := none
  cashAndEquivalents : Option (Js ℚ) := none
  shareholdersEquity : Option (Js ℚ) := none
  workingCapital : Option (Js ℚ) := none
  totalEquity : Option (Js ℚ) := none
  retainedEarnings : Option (Js ℚ) := none
  bookValuePerShare : Option (Js ℚ) := none
  eps : Option (Js ℚ) := none
  dividend : Option (Js ℚ) := none
deriving DecidableEq

instance : Inhabited YearData := ⟨{}⟩

/-- The `exchangeRate` object; a missing `dkkToUsd` key is `none`
(reading it yields JS `undefined`). -/
structure ExchangeRate where
  dkkToUsd : Option ℚ := none
deriving DecidableEq

instance : Inhabited ExchangeRate := ⟨{}⟩

structure MarketData where
  currentPrice : ℚ := 0
  marketCap : ℚ := 0
  sharesOutstanding : ℚ := 0
  beta : ℚ := 0
deriving DecidableEq

structure RiskFactors where
  riskFreeRate : ℚ := 0
  marketRiskPremium : ℚ := 0
  specificRiskPremium : ℚ := 0
deriving DecidableEq

structure Assumptions where
  terminalGrowthRate : ℚ := 0
  taxRate : ℚ := 0
  dividendGrowthRate : ℚ := 0
deriving DecidableEq

structure GrowthMetrics where
  fcfGrowth5Y : ℚ := 0
  revenueGrowth5Y : ℚ := 0
deriving DecidableEq

structure DividendInfo where
  currentAnnualDividend : Option (Js ℚ) := none
  currentDividendYield : ℚ := 0
deriving DecidableEq

structure LeverageRatios where
  debtToEquity : ℚ := 0
deriving DecidableEq

structure KeyRatios where
  leverageRatios : LeverageRatios := {}
deriving DecidableEq

/-- The company record handed to the `ValuationCalculator` constructor
(the fields the embedded methods read).  `financialHistory` is a JSON
object keyed by year label; it is modelled as an association list with
distinct keys, in the object's own (unsorted) key order. -/
structure CompanyData where
  currency : Option String := none
  exchangeRate : Option ExchangeRate := none
  industry : String := ""
  financialHistory : List (String × YearData) := []
  dividendInfo : Option DividendInfo := none
  marketData : MarketData := {}
  riskFactors : RiskFactors := {}
  assumptions : Assumptions := {}
  growthMetrics : GrowthMetrics := {}
  keyRatios : KeyRatios := {}
  convertedFromCurrency : Option String := none
  conversionRate : Option ℚ := none
deriving DecidableEq

/-! ### Currency conversion (`convertToUSD`, lines 14-71) -/

/-- Conversion of one monetary field (the `monetaryFields.forEach` body):
applied whenever the field is neither `undefined` nor `null`; multiplying
by a missing rate (`undefined`) yields `NaN`. -/
def convertMonetary (rate : Option ℚ) (v : Option (Js ℚ)) : Option (Js ℚ) :=
  match v with
  | none => none
  | some x => some (Js.mul x (rate.elim Js.nan Js.num))

/-- Conversion of a per-share field (`bookValuePerShare`, `eps`,
`dividend`): the source guards these with a truthiness test, so `0`,
`NaN` and absent values are left alone. -/
def convertPerShare (rate : Option ℚ) (v : Option (Js ℚ)) : Option (Js ℚ) :=
  if optTruthy v then v.map (fun x => Js.mul x (rate.elim Js.nan Js.num)) else v

/-- Conversion of one year's record in the DKK branch: the fourteen
monetary fields, then the three guarded per-share fields. -/
def convertYearDKK (rate : Option ℚ) (yd : YearData) : YearData :=
  { revenue := convertMonetary rate yd.revenue
    grossProfit := convertMonetary rate yd.grossProfit
    operatingIncome := convertMonetary rate yd.operatingIncome
    netIncome := convertMonetary rate yd.netIncome
    freeCashFlow := convertMonetary rate yd.freeCashFlow
    operatingCashFlow := convertMonetary rate yd.operatingCashFlow
    capex := convertMonetary rate yd.capex
    totalAssets := convertMonetary rate yd.totalAssets
    totalDebt := convertMonetary rate yd.totalDebt
    cashAndEquivalents := convertMonetary rate yd.cashAndEquivalents
    shareholdersEquity := convertMonetary rate yd.shareholdersEquity
    workingCapital := convertMonetary rate yd.workingCapital
    totalEquity := convertMonetary rate yd.totalEquity
    retainedEarnings := convertMonetary rate yd.retainedEarnings
    bookValuePerShare := convertPerShare rate yd.bookValuePerShare
    eps := convertPerShare rate yd.eps
    dividend := convertPerShare rate yd.dividend }

/-- `convertToUSD` (lines 14-71).  `!data.currency` is true for a missing,
`null` or empty-string currency; the deep copy
(`JSON.parse(JSON.stringify(data))`) is value-identity in this model, so
the two non-converting branches both return the record unchanged.  In the
DKK branch the dividend info is converted under a truthiness guard and
the record is stamped with `currency = "USD"`, the source currency and
the rate actually read (possibly missing). -/
def convertToUSD (data : CompanyData) : CompanyData :=
  if data.currency = none ∨ data.currency = some "" ∨ data.currency = some "USD" then
    data
  else if data.currency = some "DKK" ∧ data.exchangeRate.isSome then
    let rate := (data.exchangeRate.getD {}).dkkToUsd
    { data with
      financialHistory := data.financialHistory.map (fun p => (p.1, convertYearDKK rate p.2))
      dividendInfo := data.dividendInfo.map (fun di =>
        if optTruthy di.currentAnnualDividend then
          { di with currentAnnualDividend :=
              di.currentAnnualDividend.map (fun x => Js.mul x (rate.elim Js.nan Js.num)) }
        else di)
      currency := some "USD"
      convertedFromCurrency := data.currency
      conversionRate := rate }
  else
    data

/-! ### Latest-year selection

Every method starts with `Object.keys(financialHistory).sort()` and takes
the last key.  `Array.prototype.sort()` sorts the year labels as strings
(code-unit order, which agrees with Lean's `String` order on ASCII year
labels); object keys are distinct.  Sorting is modelled by insertion
sort, and the latest entry is the last element of the sorted list. -/

/-- Insert an entry into a key-sorted association list. -/
def insertByKey (p : String × YearData) : List (String × YearData) → List (String × YearData)
  | [] => [p]
  | q :: rest => if p.1 < q.1 then p :: q :: rest else q :: insertByKey p rest

/-- `Object.keys(...).sort()` applied to the history, keeping the values
attached to their keys. -/
def sortByYear (l : List (String × YearData)) : List (String × YearData) :=
  l.foldr insertByKey []

/-- `financialHistory[years[years.length - 1]]` of the normalized data:
the entry with the lexicographically greatest year label. -/
def latestYearData (data : CompanyData) : YearData :=
  ((sortByYear (convertToUSD data).financialHistory).getLastD ("", {})).2

/-! ### Financial primitives -/

/-- `calculateCostOfEquity` (lines 320-328): CAPM
`Rf + beta * (Rm - Rf) + specific risk`.  All inputs are read as plain
numbers. -/
def calculateCostOfEquity (data : CompanyData) : ℚ :=
  data.riskFactors.riskFreeRate
    + data.marketData.beta * data.riskFactors.marketRiskPremium
    + data.riskFactors.specificRiskPremium

/-! ### Dividend Discount Model (`calculateDDM`, lines 196-221)

The source applies the Gordon formula unconditionally: there is no
not-applicable guard and the result object has no `notApplicable` or
`reason` field, which the result structure mirrors. -/

structure DDMAssumptions where
  currentDividend : Option (Js ℚ)
  dividendGrowthRate : ℚ
  requiredReturn : ℚ
  nextYearDividend : Js ℚ
deriving DecidableEq

structure DDMResult where
  method : String
  valuePerShare : Js ℚ
  currentPrice : ℚ
  upside : Js ℚ
  assumptions : DDMAssumptions
deriving DecidableEq

/-- `calculateDDM`: `P = D0 * (1 + g) / (r - g)` on the latest year's
dividend (possibly absent, in which case the arithmetic produces `NaN`). -/
def calculateDDM (data : CompanyData) : DDMResult :=
  let latest := latestYearData data
  let currentDividend := latest.dividend
  let dividendGrowthRate := data.assumptions.dividendGrowthRate
  let requiredReturn := calculateCostOfEquity data
  let nextYearDividend := Js.mul (optJs currentDividend) (Js.num (1 + dividendGrowthRate))
  let valuePerShare := Js.div nextYearDividend (Js.num (requiredReturn - dividendGrowthRate))
  { method := "DDM (Gordon Growth)"
    valuePerShare := valuePerShare
    currentPrice := data.marketData.currentPrice
    upside := Js.mul (Js.sub (Js.div valuePerShare (Js.num data.marketData.currentPrice)) (Js.num 1)) (Js.num 100)
    assumptions :=
      { currentDividend := currentDividend
        dividendGrowthRate := dividendGrowthRate
        requiredReturn := requiredReturn
        nextYearDividend := nextYearDividend } }

/-! ### Recommendation (`getRecommendation`, lines 720-726) -/

/-- `getRecommendation`: ordered strict-threshold rules, first match wins.
Arguments are the computed upside and margin-of-safety percentages. -/
def getRecommendation (upside marginOfSafety : ℚ) : String :=
  if upside > 20 ∧ marginOfSafety > 15 then "Strong Buy"
  else if upside > 10 ∧ marginOfSafety > 10 then "Buy"
  else if upside > 0 ∧ marginOfSafety > 5 then "Hold"
  else if upside > -10 then "Hold"
  else "Sell"

/-! ### Dynamic weighting (`calculateDynamicWeights`, lines 359-454)

The function consumes the per-method result objects and a handful of
classification fields of `this.data`.  Only the result fields it actually
reads are modelled: `valuePerShare`, `upside` and (for FCFE) the
`notApplicable` flag; a result object without that property (every method
except FCFE) reads it as `undefined`, i.e. `false`. -/

/-- The slice of a method result object that the weighting reads. -/
structure MethodView where
  valuePerShare : Js ℚ := Js.num 0
  upside : Js ℚ := Js.num 0
  notApplicable : Bool := false
deriving DecidableEq

/-- The slice of `calculateRelativeValuation()`'s result that is read. -/
structure RelativeView where
  peValuation : MethodView := {}
  evEbitdaValuation : MethodView := {}
deriving DecidableEq

/-- The slice of `calculateAssetBasedValuation()`'s result that is read. -/
structure AssetView where
  bookValue : MethodView := {}
  tangibleBookValue : MethodView := {}
  liquidationValue : MethodView := {}
deriving DecidableEq

/-- The slice of `calculateEarningsBasedValuation()`'s result (the
`earningsResults` parameter is accepted but never read by the source). -/
structure EarningsView where
  capitalizedEarnings : MethodView := {}
  earningsPowerValue : MethodView := {}
deriving DecidableEq

/-- The mutable `weights` object: one key per weighted method.  The
liquidation-value, tangible-book and earnings-power methods carry no key. -/
structure Weights where
  fcfe : ℚ
  fcff : ℚ
  ddm : ℚ
  peRelative : ℚ
  evEbitda : ℚ
  bookValue : ℚ
  capitalizedEarnings : ℚ
deriving DecidableEq

/-- Character-list prefix test (building block for `includes`). -/
def charsStartWith : List Char → List Char → Bool
  | _, [] => true
  | [], _ :: _ => false
  | c :: cs, d :: ds => c == d && charsStartWith cs ds

/-- Character-list containment: some suffix starts with the pattern. -/
def charsContain : List Char → List Char → Bool
  | [], t => t.isEmpty
  | c :: cs, t => charsStartWith (c :: cs) t || charsContain cs t

/-- `String.prototype.includes`: substring containment (the empty pattern
is contained in every string, as in JS). -/
def strIncludes (s t : String) : Bool := charsContain s.data t.data

/-- The industry test used by the industry override and the asset floor:
`industry.includes("Heavy Construction") || industry.includes("Farm") ||
industry.includes("Machinery")`. -/
def isAssetHeavy (industry : String) : Bool :=
  strIncludes industry "Heavy Construction" || strIncludes industry "Farm"
    || strIncludes industry "Machinery"

/-- Base weights (lines 368-376). -/
def baseWeights : Weights :=
  { fcfe := 0.25, fcff := 0.25, ddm := 0.15, peRelative := 0.15
    evEbitda := 0.10, bookValue := 0.05, capitalizedEarnings := 0.05 }

/-- Industry-specific override (lines 379-388): asset-heavy cyclical
industries replace the whole vector. -/
def industryAdjusted (industry : String) (w : Weights) : Weights :=
  if isAssetHeavy industry then
    { fcfe := 0.20, fcff := 0.20, ddm := 0.10, peRelative := 0.20
      evEbitda := 0.15, bookValue := 0.10, capitalizedEarnings := 0.05 }
  else w

/-- Company-size adjustment (lines 391-397). -/
def sizeAdjusted (marketCap : ℚ) (w : Weights) : Weights :=
  if marketCap > 100000000000 then
    { w with capitalizedEarnings := w.capitalizedEarnings + 0.05
             ddm := w.ddm + 0.05
             fcfe := w.fcfe - 0.05
             fcff := w.fcff - 0.05 }
  else w

/-- Debt-level adjustment (lines 400-404). -/
def debtAdjusted (debtToEquity : ℚ) (w : Weights) : Weights :=
  if debtToEquity > 2 then
    { w with fcff := w.fcff + 0.10, fcfe := w.fcfe - 0.10 }
  else w

/-- Beta-based cyclicality adjustment (lines 407-413). -/
def betaAdjusted (beta : ℚ) (w : Weights) : Weights :=
  if beta > 1.3 then
    { w with fcfe := w.fcfe - 0.05, fcff := w.fcff - 0.05
             peRelative := w.peRelative + 0.05, evEbitda := w.evEbitda + 0.05 }
  else w

/-- `this.data.dividendInfo?.currentDividendYield || 0` (line 416):
optional chaining plus `|| 0` (a zero yield maps to `0` either way). -/
def dwDividendYield (di : Option DividendInfo) : ℚ :=
  match di with
  | none => 0
  | some d => d.currentDividendYield

/-- Dividend-policy adjustment (lines 417-421). -/
def dividendAdjusted (dividendYield : ℚ) (w : Weights) : Weights :=
  if dividendYield > 0.03 then
    { w with ddm := w.ddm + 0.05, fcfe := w.fcfe - 0.025, fcff := w.fcff - 0.025 }
  else w

/-- Extreme-valuation halving (lines 427-431): five `|upside| > 100`
checks, each multiplying one weight by `0.5`. -/
def qualityHalved (fcfeR fcffR ddmR peR evR : MethodView) (w : Weights) : Weights :=
  let w1 := if Js.gtb (Js.abs fcfeR.upside) (Js.num 100) then { w with fcfe := w.fcfe * 0.5 } else w
  let w2 := if Js.gtb (Js.abs fcffR.upside) (Js.num 100) then { w1 with fcff := w1.fcff * 0.5 } else w1
  let w3 := if Js.gtb (Js.abs ddmR.upside) (Js.num 100) then { w2 with ddm := w2.ddm * 0.5 } else w2
  let w4 := if Js.gtb (Js.abs peR.upside) (Js.num 100) then { w3 with peRelative := w3.peRelative * 0.5 } else w3
  if Js.gtb (Js.abs evR.upside) (Js.num 100) then { w4 with evEbitda := w4.evEbitda * 0.5 } else w4

/-- Hard exclusion of negative/unrealistic valuations (lines 434-438):
FCFE (including its `notApplicable` flag), FCFF and DDM are zeroed on
non-positive value or `|upside| > 150`; the book-value weight is zeroed
when the book-value result is non-positive and again when the
liquidation-value result is non-positive (which shares the same key). -/
def filteredWeights (fcfeR fcffR ddmR bookR liqR : MethodView) (w : Weights) : Weights :=
  let w1 :=
    if Js.leb fcfeR.valuePerShare (Js.num 0) || Js.gtb (Js.abs fcfeR.upside) (Js.num 150)
        || fcfeR.notApplicable then
      { w with fcfe := 0 }
    else w
  let w2 :=
    if Js.leb fcffR.valuePerShare (Js.num 0) || Js.gtb (Js.abs fcffR.upside) (Js.num 150) then
      { w1 with fcff := 0 }
    else w1
  let w3 :=
    if Js.leb ddmR.valuePerShare (Js.num 0) || Js.gtb (Js.abs ddmR.upside) (Js.num 150) then
      { w2 with ddm := 0 }
    else w2
  let w4 := if Js.leb bookR.valuePerShare (Js.num 0) then { w3 with bookValue := 0 } else w3
  if Js.leb liqR.valuePerShare (Js.num 0) then { w4 with bookValue := 0 } else w4

/-- Asset floor (lines 441-445): asset-heavy industries get the
book-value weight restored to `0.05` when it was zeroed but tangible book
value is positive. -/
def assetFloored (industry : String) (tangibleR : MethodView) (w : Weights) : Weights :=
  if isAssetHeavy industry ∧ w.bookValue = 0 ∧ Js.gtb tangibleR.valuePerShare (Js.num 0) then
    { w with bookValue := 0.05 }
  else w

/-- Sum of the weight object's values (`Object.values(weights).reduce`). -/
def totalWeight (w : Weights) : ℚ :=
  w.fcfe + w.fcff + w.ddm + w.peRelative + w.evEbitda + w.bookValue + w.capitalizedEarnings

/-- Normalization (lines 448-451): every key divided by the sum. -/
def normalizeWeights (w : Weights) : Weights :=
  { fcfe := w.fcfe / totalWeight w
    fcff := w.fcff / totalWeight w
    ddm := w.ddm / totalWeight w
    peRelative := w.peRelative / totalWeight w
    evEbitda := w.evEbitda / totalWeight w
    bookValue := w.bookValue / totalWeight w
    capitalizedEarnings := w.capitalizedEarnings / totalWeight w }

/-- The weight vector after the base vector and the five data-driven
adjustments (industry, size, debt, beta, dividend policy), before the
quality checks. -/
def adjustedWeights (data : CompanyData) : Weights :=
  dividendAdjusted (dwDividendYield data.dividendInfo)
    (betaAdjusted data.marketData.beta
      (debtAdjusted data.keyRatios.leverageRatios.debtToEquity
        (sizeAdjusted data.marketData.marketCap
          (industryAdjusted data.industry baseWeights))))

/-- The weight vector just before normalization (after the adjustments,
the halving, the hard exclusions and the asset floor). -/
def preNormalWeights (data : CompanyData) (fcfeResult fcffResult ddmResult : MethodView)
    (relativeResults : RelativeView) (assetResults : AssetView) : Weights :=
  assetFloored data.industry assetResults.tangibleBookValue
    (filteredWeights fcfeResult fcffResult ddmResult assetResults.bookValue
      assetResults.liquidationValue
      (qualityHalved fcfeResult fcffResult ddmResult relativeResults.peValuation
        relativeResults.evEbitdaValuation (adjustedWeights data)))

/-- `calculateDynamicWeights` (lines 359-454).  The `earningsResults`
parameter is accepted, as in the source, but never read. -/
def calculateDynamicWeights (data : CompanyData) (fcfeResult fcffResult ddmResult : MethodView)
    (relativeResults : RelativeView) (assetResults : AssetView)
    (earningsResults : EarningsView) : Weights :=
  normalizeWeights (preNormalWeights data fcfeResult fcffResult ddmResult relativeResults assetResults)

/-! ### `Math.pow` and `Math.sqrt`

`Math.pow` follows the ECMAScript exponentiation table: a `NaN` exponent
gives `NaN`, a zero exponent gives `1` for every base, a negative finite
base with a non-integer finite exponent gives `NaN`, a zero base with a
negative exponent gives `Infinity`, and in the remaining finite cases the
result is real exponentiation (`Real.rpow`, which agrees with the IEEE
value for negative bases at integer exponents). -/

open Classical in
/-- `Math.pow(base, exponent)` on JS numbers. -/
noncomputable def jsPow : Js ℝ → Js ℝ → Js ℝ
  | _, Js.nan => Js.nan
  | b, Js.num e =>
    if e = 0 then Js.num 1
    else
      match b with
      | Js.num bb =>
          if bb < 0 ∧ ¬(∃ n : ℤ, (n : ℝ) = e) then Js.nan
          else if bb = 0 ∧ e < 0 then Js.posInf
          else Js.num (bb ^ e)
      | Js.posInf => if 0 < e then Js.posInf else Js.num 0
      | Js.negInf =>
          if 0 < e then
            (if ∃ n : ℤ, (n : ℝ) = e ∧ Odd n then Js.negInf else Js.posInf)
          else Js.num 0
      | Js.nan => Js.nan
  | b, Js.posInf =>
      match b with
      | Js.num bb => if 1 < |bb| then Js.posInf else if |bb| = 1 then Js.nan else Js.num 0
      | Js.nan => Js.nan
      | _ => Js.posInf
  | b, Js.negInf =>
      match b with
      | Js.num bb => if 1 < |bb| then Js.num 0 else if |bb| = 1 then Js.nan else Js.posInf
      | Js.nan => Js.nan
      | _ => Js.num 0

/-- `Math.sqrt`: `NaN` on negative inputs, `Real.sqrt` otherwise. -/
noncomputable def jsSqrt : Js ℝ → Js ℝ
  | Js.num a => if a < 0 then Js.nan else Js.num (Real.sqrt a)
  | Js.posInf => Js.posInf
  | Js.negInf => Js.nan
  | Js.nan => Js.nan

/-! ### `calculateCAGR` (lines 347-353) -/

/-- `calculateCAGR(values)`: `0` for fewer than two values, otherwise
`Math.pow(end / begin, 1 / (length - 1)) - 1`. -/
noncomputable def calculateCAGR (values : List (Js ℝ)) : Js ℝ :=
  if values.length < 2 then Js.num 0
  else
    let beginValue := values.headD Js.nan
    let endValue := values.getLastD Js.nan
    let years : ℝ := (values.length : ℝ) - 1
    Js.sub (jsPow (Js.div endValue beginValue) (Js.div (Js.num 1) (Js.num years))) (Js.num 1)

/-! ### `calculateFCFE` (lines 74-139) -/

structure FCFEAssumptions where
  initialGrowth : Js ℝ
  terminalGrowth : ℚ
  discountRate : ℚ
  yearsProjected : ℕ

structure FCFEResult where
  method : String
  totalValue : Js ℝ
  valuePerShare : Js ℝ
  currentPrice : ℚ
  upside : Js ℝ
  notApplicable : Bool := false
  reason : Option String := none
  assumptions : FCFEAssumptions

/-- `Number.prototype.toFixed(0)` as used in the FCFE reason string:
nearest integer with ties toward `+∞` (`round`); infinities and `NaN`
print their names. -/
def jsToFixed0 (x : Js ℚ) : String :=
  match x with
  | Js.num q => toString (round q)
  | Js.posInf => "Infinity"
  | Js.negInf => "-Infinity"
  | Js.nan => "NaN"

/-- `calculateFCFE`: non-positive latest free cash flow short-circuits to
a flagged not-applicable result with `valuePerShare = 0` and a diagnostic
reason; otherwise a 5-year declining-growth DCF (growth decays by factor
`0.85` per year) plus a Gordon terminal value, all at the CAPM discount
rate.  (An absent latest FCF compares as `NaN ≤ 0 = false` and falls into
the DCF branch, as in JS.) -/
noncomputable def calculateFCFE (data : CompanyData) : FCFEResult :=
  let hist := sortByYear (convertToUSD data).financialHistory
  let latest := latestYearData data
  if Js.leb (optJs latest.freeCashFlow) (Js.num 0) then
    { method := "FCFE"
      totalValue := Js.num 0
      valuePerShare := Js.num 0
      currentPrice := data.marketData.currentPrice
      upside := Js.num 0
      notApplicable := true
      reason := some ("FCFE model not applicable due to negative free cash flow ("
        ++ jsToFixed0 (Js.div (optJs latest.freeCashFlow) (Js.num 1000000)) ++ "M)")
      assumptions :=
        { initialGrowth := Js.num 0
          terminalGrowth := data.assumptions.terminalGrowthRate
          discountRate := calculateCostOfEquity data
          yearsProjected := 5 } }
  else
    let fcfHistory := hist.map (fun p => Js.toR (optJs p.2.freeCashFlow))
    let avgGrowthRate := calculateCAGR fcfHistory
    let initialGrowthRate :=
      Js.min (Js.min avgGrowthRate (Js.num (data.growthMetrics.fcfGrowth5Y : ℝ))) (Js.num 0.15)
    let terminalGrowthRate := data.assumptions.terminalGrowthRate
    let discountRate := calculateCostOfEquity data
    let step := fun (acc : Js ℝ × Js ℝ) (i : ℕ) =>
      let growthRate := Js.mul initialGrowthRate (Js.num ((0.85 : ℝ) ^ i))
      let currentFCF := Js.mul acc.1 (Js.add (Js.num 1) growthRate)
      let presentValue := Js.div currentFCF (Js.num ((1 + (discountRate : ℝ)) ^ (i + 1)))
      (currentFCF, Js.add acc.2 presentValue)
    let looped := (List.range 5).foldl step (Js.toR (optJs latest.freeCashFlow), Js.num 0)
    let terminalFCF := Js.mul looped.1 (Js.num (1 + (terminalGrowthRate : ℝ)))
    let terminalValue := Js.div terminalFCF (Js.num ((discountRate : ℝ) - (terminalGrowthRate : ℝ)))
    let presentTerminalValue := Js.div terminalValue (Js.num ((1 + (discountRate : ℝ)) ^ (5 : ℕ)))
    let intrinsicValue := Js.add looped.2 presentTerminalValue
    let valuePerShare := Js.div intrinsicValue (Js.num (data.marketData.sharesOutstanding : ℝ))
    { method := "FCFE"
      totalValue := intrinsicValue
      valuePerShare := valuePerShare
      currentPrice := data.marketData.currentPrice
      upside := Js.mul (Js.sub (Js.div valuePerShare (Js.num (data.marketData.currentPrice : ℝ)))
        (Js.num 1)) (Js.num 100)
      assumptions :=
        { initialGrowth := initialGrowthRate
          terminalGrowth := terminalGrowthRate
          discountRate := discountRate
          yearsProjected := 5 } }

/-! ### `calculateConfidence` (lines 669-680)

The source receives the weighted-valuation array and maps out the
`value` fields; the embedding takes that list of values directly. -/

/-- `calculateConfidence`: coefficient of variation (stddev over mean) of
the method values, classified by strict thresholds `0.2` and `0.4`; all
arithmetic is JS arithmetic, so a zero mean drives the CV to `Infinity`
or `NaN` and both threshold tests fail. -/
noncomputable def calculateConfidence (values : List (Js ℝ)) : String :=
  let mean := Js.div (values.foldl Js.add (Js.num 0)) (Js.num (values.length : ℝ))
  let variance :=
    Js.div (values.foldl (fun sum val => Js.add sum (jsPow (Js.sub val mean) (Js.num 2)))
      (Js.num 0)) (Js.num (values.length : ℝ))
  let stdDev := jsSqrt variance
  let coefficientOfVariation := Js.div stdDev mean
  if Js.ltb coefficientOfVariation (Js.num 0.2) then "High"
  else if Js.ltb coefficientOfVariation (Js.num 0.4) then "Medium"
  else "Low"

/-! ## Helper lemmas -/

/-- The halving stage, written field-by-field: only the five
upside-checked methods are touched. -/
lemma qualityHalved_eq (fcfeR fcffR ddmR peR evR : MethodView) (w : Weights) :
    qualityHalved fcfeR fcffR ddmR peR evR w =
      { fcfe := if Js.gtb (Js.abs fcfeR.upside) (Js.num 100) then w.fcfe * 0.5 else w.fcfe
        fcff := if Js.gtb (Js.abs fcffR.upside) (Js.num 100) then w.fcff * 0.5 else w.fcff
        ddm := if Js.gtb (Js.abs ddmR.upside) (Js.num 100) then w.ddm * 0.5 else w.ddm
        peRelative := if Js.gtb (Js.abs peR.upside) (Js.num 100) then w.peRelative * 0.5 else w.peRelative
        evEbitda := if Js.gtb (Js.abs evR.upside) (Js.num 100) then w.evEbitda * 0.5 else w.evEbitda
        bookValue := w.bookValue
        capitalizedEarnings := w.capitalizedEarnings } := by
  unfold qualityHalved
  split_ifs <;> rfl

/-- The hard-exclusion stage, written field-by-field: `peRelative`,
`evEbitda` and `capitalizedEarnings` are never zeroed; the book-value
key is zeroed by the book-value check and by the liquidation-value
check. -/
lemma filteredWeights_eq (fcfeR fcffR ddmR bookR liqR : MethodView) (w : Weights) :
    filteredWeights fcfeR fcffR ddmR bookR liqR w =
      { fcfe := if Js.leb fcfeR.valuePerShare (Js.num 0) || Js.gtb (Js.abs fcfeR.upside) (Js.num 150)
            || fcfeR.notApplicable then 0 else w.fcfe
        fcff := if Js.leb fcffR.valuePerShare (Js.num 0)
            || Js.gtb (Js.abs fcffR.upside) (Js.num 150) then 0 else w.fcff
        ddm := if Js.leb ddmR.valuePerShare (Js.num 0)
            || Js.gtb (Js.abs ddmR.upside) (Js.num 150) then 0 else w.ddm
        peRelative := w.peRelative
        evEbitda := w.evEbitda
        bookValue := if Js.leb liqR.valuePerShare (Js.num 0) then 0
          else if Js.leb bookR.valuePerShare (Js.num 0) then 0 else w.bookValue
        capitalizedEarnings := w.capitalizedEarnings } := by
  unfold filteredWeights
  split_ifs <;> rfl

/-- The asset-floor stage as a single field update. -/
lemma assetFloored_eq (industry : String) (tangibleR : MethodView) (w : Weights) :
    assetFloored industry tangibleR w =
      { w with bookValue :=
          if isAssetHeavy industry ∧ w.bookValue = 0 ∧ Js.gtb tangibleR.valuePerShare (Js.num 0)
          then 0.05 else w.bookValue } := by
  unfold assetFloored
  split_ifs <;> rfl

/-- `convertToUSD` is the identity whenever the first guard fires
(missing, empty or already-USD currency). -/
lemma convertToUSD_of_guard (data : CompanyData)
    (h : data.currency = none ∨ data.currency = some "" ∨ data.currency = some "USD") :
    convertToUSD data = data := by
  unfold convertToUSD
  rw [if_pos h]

/-- In the DKK branch the returned record carries `currency = "USD"`. -/
lemma convertToUSD_currency_cases (data : CompanyData) :
    (convertToUSD data).currency = data.currency ∨ (convertToUSD data).currency = some "USD" := by
  unfold convertToUSD
  split_ifs with h1 h2
  · exact Or.inl rfl
  · exact Or.inr rfl
  · exact Or.inl rfl

/-- Idempotence of the normalizer. -/
lemma convertToUSD_idem (data : CompanyData) : convertToUSD (convertToUSD data) = convertToUSD data := by
  by_cases h1 : data.currency = none ∨ data.currency = some "" ∨ data.currency = some "USD"
  · rw [convertToUSD_of_guard data h1, convertToUSD_of_guard data h1]
  · by_cases h2 : data.currency = some "DKK" ∧ data.exchangeRate.isSome
    · have hc : (convertToUSD data).currency = some "USD" := by
        unfold convertToUSD
        rw [if_neg h1, if_pos h2]
      exact convertToUSD_of_guard _ (Or.inr (Or.inr hc))
    · have e1 : convertToUSD data = data := by
        unfold convertToUSD
        rw [if_neg h1, if_neg h2]
      rw [e1, e1]

/-! ## Claims -/

/-- C9: currency normalization is an identity on records already in the
base currency and is idempotent: re-running `convertToUSD` on its own
output changes nothing.  (The source never mutates its argument: the
converting branch works on a `JSON` deep copy, which the pure embedding
reflects as value semantics.) -/
theorem convertToUSD_identity_and_idempotent :
    (∀ data : CompanyData, data.currency = some "USD" → convertToUSD data = data) ∧
    (∀ data : CompanyData, convertToUSD (convertToUSD data) = convertToUSD data) :=
  ⟨fun data h => convertToUSD_of_guard data (Or.inr (Or.inr h)),
   convertToUSD_idem⟩

/-- A concrete DKK record with an exchange rate, for the C9 witness. -/
def dkkSample : CompanyData :=
  { currency := some "DKK"
    exchangeRate := some { dkkToUsd := some (3/20) }
    financialHistory := [("2024", { revenue := some (Js.num 100) })] }

/-- C9 witness: a concrete USD record is returned unchanged, and a
concrete DKK record is a fixed point of a second normalization. -/
theorem convertToUSD_identity_and_idempotent_witness :
    convertToUSD { currency := some "USD" } = { currency := some "USD" } ∧
    convertToUSD (convertToUSD dkkSample) = convertToUSD dkkSample :=
  ⟨convertToUSD_identity_and_idempotent.1 _ rfl,
   convertToUSD_identity_and_idempotent.2 _⟩

/-- C6: `getRecommendation` evaluates its strict-threshold rules in
order, first match winning, and the boundary input
`upside = 20, marginOfSafety = 15` falls through the Strong Buy rule to
Buy. -/
theorem getRecommendation_rules :
    (∀ u m : ℚ, 20 < u → 15 < m → getRecommendation u m = "Strong Buy") ∧
    (∀ u m : ℚ, ¬(20 < u ∧ 15 < m) → 10 < u → 10 < m → getRecommendation u m = "Buy") ∧
    (∀ u m : ℚ, ¬(20 < u ∧ 15 < m) → ¬(10 < u ∧ 10 < m) → 0 < u → 5 < m →
      getRecommendation u m = "Hold") ∧
    (∀ u m : ℚ, ¬(20 < u ∧ 15 < m) → ¬(10 < u ∧ 10 < m) → ¬(0 < u ∧ 5 < m) → -10 < u →
      getRecommendation u m = "Hold") ∧
    (∀ u m : ℚ, u ≤ -10 → getRecommendation u m = "Sell") ∧
    getRecommendation 20 15 = "Buy" := by
  refine ⟨?_, ?_, ?_, ?_, ?_, by decide⟩
  · intro u m h1 h2
    unfold getRecommendation
    rw [if_pos ⟨h1, h2⟩]
  · intro u m hn h1 h2
    unfold getRecommendation
    rw [if_neg hn, if_pos ⟨h1, h2⟩]
  · intro u m hn1 hn2 h1 h2
    unfold getRecommendation
    rw [if_neg hn1, if_neg hn2, if_pos ⟨h1, h2⟩]
  · intro u m hn1 hn2 hn3 h4
    unfold getRecommendation
    rw [if_neg hn1, if_neg hn2, if_neg hn3, if_pos h4]
  · intro u m h
    unfold getRecommendation
    split_ifs with h1 h2 h3 h4
    · exact absurd h1.1 (by linarith)
    · exact absurd h2.1 (by linarith)
    · exact absurd h3.1 (by linarith)
    · exact absurd h4 (by linarith)
    · rfl

/-- C6 witness: one input per rule, including the exact boundary. -/
theorem getRecommendation_rules_witness :
    getRecommendation 25 16 = "Strong Buy" ∧ getRecommendation 20 15 = "Buy" ∧
    getRecommendation 5 6 = "Hold" ∧ getRecommendation (-5) 3 = "Hold" ∧
    getRecommendation (-20) 0 = "Sell" :=
  ⟨getRecommendation_rules.1 25 16 (by norm_num) (by norm_num),
   getRecommendation_rules.2.2.2.2.2,
   getRecommendation_rules.2.2.1 5 6 (by norm_num) (by norm_num) (by norm_num) (by norm_num),
   getRecommendation_rules.2.2.2.1 (-5) 3 (by norm_num) (by norm_num) (by norm_num) (by norm_num),
   getRecommendation_rules.2.2.2.2.1 (-20) 0 (by norm_num)⟩

/-- A DKK record whose exchange-rate table is present but lacks the
`dkkToUsd` key. -/
def dkkMissingRate : CompanyData :=
  { currency := some "DKK"
    exchangeRate := some {}
    financialHistory := [("2024", { revenue := some (Js.num 100) })] }

/-- C4 counterexample: with the rate table present but the needed key
missing, the converted record's monetary field is `NaN`, not its original
numeric value (no rate-1.0 fallback exists in the code). -/
theorem convertToUSD_missing_rate_counterexample :
    ((convertToUSD dkkMissingRate).financialHistory.headD ("", {})).2.revenue = some Js.nan ∧
    (convertToUSD dkkMissingRate).currency = some "USD" ∧
    dkkMissingRate.financialHistory = [("2024", { revenue := some (Js.num 100) })] := by
  decide

/-- C4 amended: for a DKK record whose rate table lacks `dkkToUsd`, the
conversion still runs (no exception) and stamps the record as USD, but
the missing rate multiplies through as `undefined`, so every present
monetary field becomes `NaN` instead of keeping its value at an implicit
rate of 1.0. -/
theorem convertToUSD_missing_rate_nan (data : CompanyData) (er : ExchangeRate)
    (h1 : data.currency = some "DKK") (h2 : data.exchangeRate = some er)
    (h3 : er.dkkToUsd = none) :
    (convertToUSD data).currency = some "USD" ∧
    (convertToUSD data).financialHistory =
      data.financialHistory.map (fun p => (p.1, convertYearDKK none p.2)) ∧
    ∀ x : Js ℚ, convertMonetary none (some x) = some Js.nan := by
  have hne1 : ¬(data.currency = none ∨ data.currency = some "" ∨ data.currency = some "USD") := by
    simp [h1]
  have hpos : data.currency = some "DKK" ∧ data.exchangeRate.isSome := ⟨h1, by simp [h2]⟩
  unfold convertToUSD
  rw [if_neg hne1, if_pos hpos]
  refine ⟨rfl, ?_, ?_⟩
  · simp only [h2, Option.getD_some, h3]
  · intro x
    cases x <;> rfl

/-- C4 amended witness: the concrete missing-rate record. -/
theorem convertToUSD_missing_rate_nan_witness :
    (convertToUSD dkkMissingRate).currency = some "USD" ∧
    (convertToUSD dkkMissingRate).financialHistory =
      dkkMissingRate.financialHistory.map (fun p => (p.1, convertYearDKK none p.2)) ∧
    ∀ x : Js ℚ, convertMonetary none (some x) = some Js.nan :=
  convertToUSD_missing_rate_nan dkkMissingRate {} rfl rfl rfl

/-- A record with `requiredReturn = growth = 0.08` and a positive latest
dividend (CAPM inputs: `riskFree = 0.08`, `beta = 1`, zero premia). -/
def ddmEqualRates : CompanyData :=
  { financialHistory := [("2024", { dividend := some (Js.num 3) })]
    marketData := { currentPrice := 50, marketCap := 0, sharesOutstanding := 1, beta := 1 }
    riskFactors := { riskFreeRate := 0.08, marketRiskPremium := 0, specificRiskPremium := 0 }
    assumptions := { dividendGrowthRate := 0.08 } }

/-- C1: evaluating the code at the failing input — with
`requiredReturn = 0.08` and `growth = 0.08` the Gordon denominator is
zero and `calculateDDM` returns `valuePerShare = Infinity`; there is no
not-applicable flagging in the method at all (its result object carries
no such field), contrary to the specification's stated guard. -/
theorem calculateDDM_equal_rates_infinity :
    calculateCostOfEquity ddmEqualRates = 0.08 ∧
    ddmEqualRates.assumptions.dividendGrowthRate = 0.08 ∧
    (calculateDDM ddmEqualRates).valuePerShare = Js.posInf := by
  refine ⟨?_, rfl, ?_⟩
  · norm_num [calculateCostOfEquity, ddmEqualRates]
  · norm_num [calculateDDM, latestYearData, convertToUSD, sortByYear, insertByKey,
      calculateCostOfEquity, ddmEqualRates, optJs, Js.mul, Js.div]

/-- The general form of the C1 defect: `calculateDDM` applies the
Gordon formula unconditionally, so whenever the required return equals
the dividend growth rate and the latest dividend is a positive number
(with `1 + g > 0`), the returned value per share is `Infinity`. -/
theorem calculateDDM_no_guard_posInf (data : CompanyData) (q : ℚ)
    (hd : (latestYearData data).dividend = some (Js.num q)) (hq : 0 < q)
    (hg : 0 < 1 + data.assumptions.dividendGrowthRate)
    (hr : calculateCostOfEquity data = data.assumptions.dividendGrowthRate) :
    (calculateDDM data).valuePerShare = Js.posInf := by
  have hz : calculateCostOfEquity data - data.assumptions.dividendGrowthRate = 0 := by
    rw [hr, sub_self]
  unfold calculateDDM
  simp only [hd, optJs, Option.getD, Js.mul, hz]
  simp [Js.div, mul_pos hq hg]

/-- Witness instantiating the general C1 defect at the concrete
equal-rates record. -/
theorem calculateDDM_no_guard_posInf_witness :
    (latestYearData ddmEqualRates).dividend = some (Js.num 3) ∧
    (calculateDDM ddmEqualRates).valuePerShare = Js.posInf :=
  ⟨rfl,
   calculateDDM_no_guard_posInf ddmEqualRates 3 rfl (by norm_num)
     (by norm_num [ddmEqualRates])
     (by norm_num [calculateCostOfEquity, ddmEqualRates])⟩

/-- C7: when the latest-year free cash flow is a number ≤ 0,
`calculateFCFE` returns the flagged not-applicable result with a zero
value per share and a diagnostic reason. -/
theorem calculateFCFE_nonpositive_flagged (data : CompanyData) (q : ℚ)
    (h : (latestYearData data).freeCashFlow = some (Js.num q)) (hq : q ≤ 0) :
    (calculateFCFE data).notApplicable = true ∧
    (calculateFCFE data).valuePerShare = Js.num 0 ∧
    (calculateFCFE data).reason.isSome = true := by
  simp only [calculateFCFE, h, optJs, Option.getD]
  simp [Js.leb, hq]

/-- A record whose latest free cash flow is `-1`. -/
def fcfeNegSample : CompanyData :=
  { financialHistory := [("2024", { freeCashFlow := some (Js.num (-1)) })] }

/-- C7 witness: free cash flow `-1` yields the flagged zero result. -/
theorem calculateFCFE_nonpositive_flagged_witness :
    (latestYearData fcfeNegSample).freeCashFlow = some (Js.num (-1)) ∧
    ((calculateFCFE fcfeNegSample).notApplicable = true ∧
      (calculateFCFE fcfeNegSample).valuePerShare = Js.num 0 ∧
      (calculateFCFE fcfeNegSample).reason.isSome = true) :=
  ⟨rfl, calculateFCFE_nonpositive_flagged fcfeNegSample (-1) rfl (by norm_num)⟩

/-- C10: at the hard-exclusion stage, a non-positive liquidation value
zeroes the `bookValue` weight (the shared key), whatever the book-value
result itself is. -/
theorem filteredWeights_liquidation_zeroes_bookValue
    (fcfeR fcffR ddmR bookR liqR : MethodView) (w : Weights)
    (h : Js.leb liqR.valuePerShare (Js.num 0) = true) :
    (filteredWeights fcfeR fcffR ddmR bookR liqR w).bookValue = 0 := by
  unfold filteredWeights
  simp [h]

/-- C10 witness: liquidation value `-2` with a strictly positive
book value (`5`) still zeroes the book-value weight. -/
theorem filteredWeights_liquidation_zeroes_bookValue_witness :
    Js.leb ((Js.num (-2) : Js ℚ)) (Js.num 0) = true ∧
    Js.ltb ((Js.num 0 : Js ℚ)) (Js.num 5) = true ∧
    (filteredWeights {} {} {} { valuePerShare := Js.num 5 } { valuePerShare := Js.num (-2) }
      baseWeights).bookValue = 0 :=
  ⟨by decide, by decide,
   filteredWeights_liquidation_zeroes_bookValue {} {} {} { valuePerShare := Js.num 5 }
     { valuePerShare := Js.num (-2) } baseWeights (by decide)⟩

/-- A record that triggers none of the data-driven weight adjustments. -/
def c5plain : CompanyData := { industry := "Tech" }

/-- A benign method result: positive value, zero upside. -/
def c5ok : MethodView := { valuePerShare := Js.num 50, upside := Js.num 0 }

/-- An earnings result whose capitalized-earnings value is non-positive
and whose upside exceeds 150%. -/
def c5badEarn : EarningsView :=
  { capitalizedEarnings := { valuePerShare := Js.num (-5), upside := Js.num 200 } }

/-- C5 counterexample: a capitalized-earnings result with non-positive
value per share and |upside| > 150% keeps its full positive weight
(`0.05`), because the dampening rules never touch the
capitalized-earnings key (the earnings results are not even read). -/
theorem dampening_not_uniform_counterexample :
    Js.leb c5badEarn.capitalizedEarnings.valuePerShare (Js.num 0) = true ∧
    Js.gtb (Js.abs c5badEarn.capitalizedEarnings.upside) (Js.num 150) = true ∧
    (calculateDynamicWeights c5plain c5ok c5ok c5ok
      { peValuation := c5ok, evEbitdaValuation := c5ok }
      { bookValue := c5ok, tangibleBookValue := c5ok, liquidationValue := c5ok }
      c5badEarn).capitalizedEarnings = 0.05 := by
  refine ⟨by decide, by norm_num [c5badEarn, Js.gtb, Js.ltb, Js.abs], ?_⟩
  simp +decide [calculateDynamicWeights, normalizeWeights, preNormalWeights, adjustedWeights,
    totalWeight, assetFloored, filteredWeights, qualityHalved, dividendAdjusted, betaAdjusted,
    debtAdjusted, sizeAdjusted, industryAdjusted, baseWeights, isAssetHeavy, strIncludes,
    charsContain, charsStartWith, dwDividendYield, c5plain, c5ok, Js.gtb, Js.ltb, Js.leb, Js.abs]
  norm_num

/-- C5 amended: the dampening is method-specific, not uniform.  Halving
on |upside| > 100% applies exactly to the five upside-checked methods
(fcfe, fcff, ddm, peRelative, evEbitda) and never to bookValue or
capitalizedEarnings; the hard exclusion on |upside| > 150% or
non-positive value applies only to fcfe (which alone also checks the
`notApplicable` flag), fcff and ddm; the bookValue weight is zeroed
exactly when the book-value or the liquidation-value result is
non-positive; peRelative, evEbitda and capitalizedEarnings are never
zeroed. -/
theorem dampening_method_specific :
    (∀ (fcfeR fcffR ddmR peR evR : MethodView) (w : Weights),
      qualityHalved fcfeR fcffR ddmR peR evR w =
        { fcfe := if Js.gtb (Js.abs fcfeR.upside) (Js.num 100) then w.fcfe * 0.5 else w.fcfe
          fcff := if Js.gtb (Js.abs fcffR.upside) (Js.num 100) then w.fcff * 0.5 else w.fcff
          ddm := if Js.gtb (Js.abs ddmR.upside) (Js.num 100) then w.ddm * 0.5 else w.ddm
          peRelative := if Js.gtb (Js.abs peR.upside) (Js.num 100) then w.peRelative * 0.5
            else w.peRelative
          evEbitda := if Js.gtb (Js.abs evR.upside) (Js.num 100) then w.evEbitda * 0.5
            else w.evEbitda
          bookValue := w.bookValue
          capitalizedEarnings := w.capitalizedEarnings }) ∧
    (∀ (fcfeR fcffR ddmR bookR liqR : MethodView) (w : Weights),
      filteredWeights fcfeR fcffR ddmR bookR liqR w =
        { fcfe := if Js.leb fcfeR.valuePerShare (Js.num 0)
              || Js.gtb (Js.abs fcfeR.upside) (Js.num 150) || fcfeR.notApplicable then 0
            else w.fcfe
          fcff := if Js.leb fcffR.valuePerShare (Js.num 0)
              || Js.gtb (Js.abs fcffR.upside) (Js.num 150) then 0 else w.fcff
          ddm := if Js.leb ddmR.valuePerShare (Js.num 0)
              || Js.gtb (Js.abs ddmR.upside) (Js.num 150) then 0 else w.ddm
          peRelative := w.peRelative
          evEbitda := w.evEbitda
          bookValue := if Js.leb liqR.valuePerShare (Js.num 0) then 0
            else if Js.leb bookR.valuePerShare (Js.num 0) then 0 else w.bookValue
          capitalizedEarnings := w.capitalizedEarnings }) :=
  ⟨qualityHalved_eq, filteredWeights_eq⟩

/-- Bounds on the adjusted weight vector, over all inputs: only `fcfe`
can go (slightly) negative, `peRelative` never drops below `0.15`, and
`capitalizedEarnings` never drops below `0.05` (no adjustment decreases
it). -/
lemma adjusted_bounds (data : CompanyData) :
    -1/40 ≤ (adjustedWeights data).fcfe ∧ 0 ≤ (adjustedWeights data).fcff ∧
    0 ≤ (adjustedWeights data).ddm ∧ 3/20 ≤ (adjustedWeights data).peRelative ∧
    0 ≤ (adjustedWeights data).evEbitda ∧ 0 ≤ (adjustedWeights data).bookValue ∧
    1/20 ≤ (adjustedWeights data).capitalizedEarnings := by
  unfold adjustedWeights dividendAdjusted betaAdjusted debtAdjusted sizeAdjusted
    industryAdjusted baseWeights
  split_ifs <;> norm_num

/-- The same bounds survive halving, hard exclusion and the asset floor,
with `peRelative` at worst halved: in particular the pre-normalization
vector always keeps `peRelative ≥ 3/40` and
`capitalizedEarnings ≥ 1/20`. -/
lemma preNormal_bounds (data : CompanyData) (f1 f2 d : MethodView) (rel : RelativeView)
    (asset : AssetView) :
    -1/40 ≤ (preNormalWeights data f1 f2 d rel asset).fcfe ∧
    0 ≤ (preNormalWeights data f1 f2 d rel asset).fcff ∧
    0 ≤ (preNormalWeights data f1 f2 d rel asset).ddm ∧
    3/40 ≤ (preNormalWeights data f1 f2 d rel asset).peRelative ∧
    0 ≤ (preNormalWeights data f1 f2 d rel asset).evEbitda ∧
    0 ≤ (preNormalWeights data f1 f2 d rel asset).bookValue ∧
    1/20 ≤ (preNormalWeights data f1 f2 d rel asset).capitalizedEarnings := by
  obtain ⟨b1, b2, b3, b4, b5, b6, b7⟩ := adjusted_bounds data
  unfold preNormalWeights
  rw [qualityHalved_eq, filteredWeights_eq, assetFloored_eq]
  refine ⟨?_, ?_, ?_, ?_, ?_, ?_, ?_⟩ <;> dsimp only <;>
    first
    | (split_ifs <;> linarith)
    | linarith

/-- Dividing every weight by the (nonzero) total makes the total `1`. -/
lemma totalWeight_normalize (w : Weights) (h : totalWeight w ≠ 0) :
    totalWeight (normalizeWeights w) = 1 := by
  have e : totalWeight (normalizeWeights w) = totalWeight w / totalWeight w := by
    unfold normalizeWeights
    show w.fcfe / totalWeight w + w.fcff / totalWeight w + w.ddm / totalWeight w
        + w.peRelative / totalWeight w + w.evEbitda / totalWeight w
        + w.bookValue / totalWeight w + w.capitalizedEarnings / totalWeight w
      = totalWeight w / totalWeight w
    rw [div_add_div_same, div_add_div_same, div_add_div_same, div_add_div_same,
      div_add_div_same, div_add_div_same]
    rfl
  rw [e, div_self h]

/-- C2: for every input to `calculateDynamicWeights` the
pre-normalization weight sum is strictly positive — the
`capitalizedEarnings` weight is never reduced below `0.05`, so the
"every method excluded" situation is unreachable — and consequently the
returned weight set sums to exactly `1` (the normalization never divides
by zero). -/
theorem dynamicWeights_always_normalized (data : CompanyData)
    (fcfeResult fcffResult ddmResult : MethodView) (relativeResults : RelativeView)
    (assetResults : AssetView) (earningsResults : EarningsView) :
    0 < totalWeight (preNormalWeights data fcfeResult fcffResult ddmResult relativeResults
      assetResults) ∧
    totalWeight (calculateDynamicWeights data fcfeResult fcffResult ddmResult relativeResults
      assetResults earningsResults) = 1 := by
  have hpos : 0 < totalWeight (preNormalWeights data fcfeResult fcffResult ddmResult
      relativeResults assetResults) := by
    obtain ⟨b1, b2, b3, b4, b5, b6, b7⟩ :=
      preNormal_bounds data fcfeResult fcffResult ddmResult relativeResults assetResults
    unfold totalWeight
    linarith
  exact ⟨hpos, totalWeight_normalize _ (ne_of_gt hpos)⟩

/-- JS division of finite values with a nonzero divisor is exact
division. -/
lemma jsDiv_num (a b : ℝ) (hb : b ≠ 0) : Js.div (Js.num a) (Js.num b) = Js.num (a / b) := by
  simp [Js.div, hb]

/-- JS subtraction of finite values is exact subtraction. -/
lemma jsSub_num (a b : ℝ) : Js.sub (Js.num a) (Js.num b) = Js.num (a - b) := by
  simp [Js.sub, Js.add, Js.neg, sub_eq_add_neg]

/-- `Math.pow` on a positive finite base and finite exponent is real
exponentiation. -/
lemma jsPow_pos (b e : ℝ) (hb : 0 < b) : jsPow (Js.num b) (Js.num e) = Js.num (b ^ e) := by
  by_cases he : e = 0
  · subst he
    simp [jsPow, Real.rpow_zero]
  · have h1 : ¬(b < 0 ∧ ¬∃ n : ℤ, (n : ℝ) = e) := fun hc => absurd hb (not_lt.mpr (le_of_lt hc.1))
    have h2 : ¬(b = 0 ∧ e < 0) := fun hc => absurd hc.1 (ne_of_gt hb)
    simp only [jsPow, if_neg he, if_neg h1, if_neg h2]

/-- C3 counterexample: `calculateCAGR [100, 121]` is exactly `0.21`
(one elapsed period, so the exponent is `1/1`), which is more than
`1e-6` away from the claimed `0.10`. -/
theorem calculateCAGR_spec_value_counterexample :
    calculateCAGR [Js.num 100, Js.num 121] = Js.num (21/100) ∧
    (1/1000000 : ℝ) < |(21/100 : ℝ) - 10/100| := by
  constructor
  · unfold calculateCAGR
    rw [if_neg (by norm_num)]
    dsimp only [List.headD, List.getLastD, List.length]
    norm_num
    rw [jsDiv_num 121 100 (by norm_num), jsDiv_num 1 1 (by norm_num),
      jsPow_pos _ _ (by norm_num), jsSub_num]
    norm_num [Real.rpow_one]
  · rw [show ((21:ℝ)/100 - 10/100) = 11/100 by norm_num,
      abs_of_pos (by norm_num : (0:ℝ) < 11/100)]
    norm_num

/-- C3 amended: `calculateCAGR` returns `0` for fewer than two values
and otherwise computes `(end/begin)^(1/n) - 1` where `n = length - 1`
is the number of *elapsed* periods; on `[100, 121]` that exponent is
`1/1`, so the result is `0.21`, not `0.10`. -/
theorem calculateCAGR_formula :
    (∀ values : List (Js ℝ), values.length < 2 → calculateCAGR values = Js.num 0) ∧
    (∀ (values : List (Js ℝ)) (b e : ℝ), 2 ≤ values.length →
      values.headD Js.nan = Js.num b → values.getLastD Js.nan = Js.num e →
      0 < b → 0 < e →
      calculateCAGR values =
        Js.num ((e / b) ^ ((1 : ℝ) / ((values.length : ℝ) - 1)) - 1)) := by
  constructor
  · intro values h
    unfold calculateCAGR
    rw [if_pos h]
  · intro values b e hlen hh hl hb he
    have hnotlt : ¬values.length < 2 := by omega
    have hy : ((values.length : ℝ) - 1) ≠ 0 := by
      have h2 : (2 : ℝ) ≤ (values.length : ℝ) := by exact_mod_cast hlen
      linarith
    unfold calculateCAGR
    rw [if_neg hnotlt]
    dsimp only
    rw [hh, hl, jsDiv_num e b (ne_of_gt hb), jsDiv_num 1 _ hy,
      jsPow_pos _ _ (div_pos he hb), jsSub_num]

/-- C3 amended witness: the empty sequence and `[100, 121]`. -/
theorem calculateCAGR_formula_witness :
    calculateCAGR ([] : List (Js ℝ)) = Js.num 0 ∧
    calculateCAGR [Js.num 100, Js.num 121] =
      Js.num (((121 : ℝ) / 100) ^ ((1 : ℝ) / (([Js.num (100 : ℝ), Js.num 121].length : ℝ) - 1)) - 1) :=
  ⟨calculateCAGR_formula.1 [] (by norm_num),
   calculateCAGR_formula.2 [Js.num 100, Js.num 121] 100 121 (by norm_num) rfl (by simp)
     (by norm_num) (by norm_num)⟩

/-- Folding JS addition over finite values is exact summation. -/
lemma foldl_add_num (xs : List ℝ) (a : ℝ) :
    (xs.map Js.num).foldl Js.add (Js.num a) = Js.num (a + xs.sum) := by
  induction xs generalizing a with
  | nil => simp
  | cons x t ih =>
    simp only [List.map_cons, List.foldl_cons, List.sum_cons]
    rw [show Js.add (Js.num a) (Js.num x) = Js.num (a + x) from rfl, ih]
    congr 1
    ring

/-- `Math.pow(x, 2)` is squaring for every finite `x` (the exponent is
an integer, so no `NaN` branch fires). -/
lemma jsPow_num_two (a : ℝ) : jsPow (Js.num a) (Js.num 2) = Js.num (a ^ (2:ℕ)) := by
  have h2 : ((2:ℝ)) ≠ 0 := by norm_num
  have h1 : ¬(a < 0 ∧ ¬∃ n : ℤ, (n : ℝ) = 2) := by
    rintro ⟨_, hn⟩
    exact hn ⟨2, by norm_num⟩
  have h3 : ¬(a = 0 ∧ (2:ℝ) < 0) := by
    rintro ⟨_, h⟩
    norm_num at h
  simp only [jsPow, if_neg h2, if_neg h1, if_neg h3]
  rw [show ((2:ℝ)) = ((2:ℕ):ℝ) by norm_num, Real.rpow_natCast]

/-- Folding the squared-deviation accumulator over finite values is the
exact sum of squares. -/
lemma foldl_sq_num (xs : List ℝ) (m a : ℝ) :
    (xs.map Js.num).foldl
      (fun sum val => Js.add sum (jsPow (Js.sub val (Js.num m)) (Js.num 2))) (Js.num a)
      = Js.num (a + (xs.map (fun x => (x - m) ^ (2:ℕ))).sum) := by
  induction xs generalizing a with
  | nil => simp
  | cons x t ih =>
    simp only [List.map_cons, List.foldl_cons, List.sum_cons]
    rw [jsSub_num, jsPow_num_two,
      show Js.add (Js.num a) (Js.num ((x - m) ^ (2:ℕ))) = Js.num (a + (x - m) ^ (2:ℕ)) from rfl,
      ih]
    congr 1
    ring

/-- `Math.sqrt` on a nonnegative finite value is `Real.sqrt`. -/
lemma jsSqrt_num (a : ℝ) (h : 0 ≤ a) : jsSqrt (Js.num a) = Js.num (Real.sqrt a) := by
  simp [jsSqrt, not_lt.mpr h]

/-- C8: on a nonempty list of finite method values, `calculateConfidence`
classifies the coefficient of variation (stddev over mean) with the
strict thresholds `0.2` and `0.4` (High / Medium / Low), and when the
mean is `0` the JS division drives the CV to `Infinity` or `NaN`, both
of which fail the threshold tests, so the result is `"Low"` rather than
a crash. -/
theorem calculateConfidence_classification :
    (∀ xs : List ℝ, xs ≠ [] → xs.sum / (xs.length : ℝ) = 0 →
      calculateConfidence (xs.map Js.num) = "Low") ∧
    (∀ xs : List ℝ, xs ≠ [] → xs.sum / (xs.length : ℝ) ≠ 0 →
      calculateConfidence (xs.map Js.num) =
        (if Real.sqrt ((xs.map (fun x => (x - xs.sum / (xs.length : ℝ)) ^ (2:ℕ))).sum
              / (xs.length : ℝ)) / (xs.sum / (xs.length : ℝ)) < 0.2 then "High"
         else if Real.sqrt ((xs.map (fun x => (x - xs.sum / (xs.length : ℝ)) ^ (2:ℕ))).sum
              / (xs.length : ℝ)) / (xs.sum / (xs.length : ℝ)) < 0.4 then "Medium"
         else "Low")) := by
  have key : ∀ xs : List ℝ, xs ≠ [] →
      calculateConfidence (xs.map Js.num) =
        (let m := xs.sum / (xs.length : ℝ)
         let sd := Real.sqrt ((xs.map (fun x => (x - m) ^ (2:ℕ))).sum / (xs.length : ℝ))
         if Js.ltb (Js.div (Js.num sd) (Js.num m)) (Js.num 0.2) then "High"
         else if Js.ltb (Js.div (Js.num sd) (Js.num m)) (Js.num 0.4) then "Medium"
         else "Low") := by
    intro xs hne
    have hlen0 : xs.length ≠ 0 := fun h => hne (List.eq_nil_of_length_eq_zero h)
    have hnne : ((xs.length : ℝ)) ≠ 0 := Nat.cast_ne_zero.mpr hlen0
    have hvar : (0:ℝ) ≤ (xs.map (fun x => (x - xs.sum / (xs.length : ℝ)) ^ (2:ℕ))).sum
        / (xs.length : ℝ) := by
      apply div_nonneg
      · apply List.sum_nonneg
        intro y hy
        obtain ⟨x, _, rfl⟩ := List.mem_map.mp hy
        positivity
      · positivity
    unfold calculateConfidence
    simp only [List.length_map]
    rw [foldl_add_num xs 0, zero_add, jsDiv_num _ _ hnne,
      foldl_sq_num xs _ 0, zero_add, jsDiv_num _ _ hnne, jsSqrt_num _ hvar]
  constructor
  · intro xs hne hm0
    rw [key xs hne]
    dsimp only
    rw [hm0]
    generalize hg : Real.sqrt ((xs.map (fun x => (x - 0) ^ (2:ℕ))).sum / (xs.length : ℝ)) = sd
    have hsd : 0 ≤ sd := hg ▸ Real.sqrt_nonneg _
    rcases eq_or_lt_of_le hsd with h0 | hpos
    · rw [← h0]
      simp [Js.div, Js.ltb]
    · have hdiv : Js.div (Js.num sd) (Js.num 0) = Js.posInf := by
        simp only [Js.div]
        simp [hpos]
      rw [hdiv]
      simp [Js.ltb]
  · intro xs hne hm
    rw [key xs hne]
    dsimp only
    simp only [Js.div, if_neg hm, Js.ltb, decide_eq_true_eq]

/-- C8 witness: `[1, -1]` has zero mean and reports Low; `[1, 1]` has
CV `0` and reports High. -/
theorem calculateConfidence_classification_witness :
    calculateConfidence ([1, -1].map Js.num) = "Low" ∧
    calculateConfidence ([1, 1].map Js.num) = "High" := by
  constructor
  · exact calculateConfidence_classification.1 [1, -1] (by simp) (by norm_num)
  · have h := calculateConfidence_classification.2 [1, 1] (by simp) (by norm_num)
    rw [h]
    norm_num [Real.sqrt_zero]
